import Mathlib

/-!
Verification of the RTU Canteen backend (src/main.py, src/schemas.py).

The two core components are shallowly embedded from the source:

* the pricing engine `calculate_totals` (src/main.py lines 75-102), and
* the SMS summary formatter `_format_orders_sms` (src/main.py lines 149-165),
  together with the order-creation pipeline `create_order` (lines 104-125).

Modelling decisions:

* Python `float` values are modelled as exact rationals (`ℚ`).  Every price in
  the static menu is a multiple of 10, and every constant in play (299.0, 0.20,
  0.01-granular literals) is exactly representable, so the decimal arithmetic
  the program performs is captured faithfully by `ℚ`.
* Python `round(x, n)` rounds half to even; `roundHalfEven` / `round2` below
  implement exactly that on `ℚ`.
* Python dicts with possibly-missing keys (`raw.get("name", "")`) are modelled
  with `Option` fields plus `Option.getD` for the default.
* Python `str.strip()` / `str.lower()` are modelled by `pyStrip` / `pyLower`
  (identical on the ASCII data this program handles); `txt[:157]` is `pySlice`
  (Python slices strings by code points, as does `List.take` on `String.data`).
* Exceptions (`HTTPException` raised for invalid / unknown items) are modelled
  with `Except PricingError`; the first raise aborts the whole computation,
  exactly as in Python.
-/

set_option maxRecDepth 16000

/-- Decidable equality for `Except`, needed to evaluate the engine's result on
concrete inputs. -/
instance {ε α : Type} [DecidableEq ε] [DecidableEq α] : DecidableEq (Except ε α)
  | Except.ok a, Except.ok b =>
    if h : a = b then isTrue (by rw [h]) else isFalse (by simp [h])
  | Except.ok _, Except.error _ => isFalse (by simp)
  | Except.error _, Except.ok _ => isFalse (by simp)
  | Except.error a, Except.error b =>
    if h : a = b then isTrue (by rw [h]) else isFalse (by simp [h])

/-- Python `str.strip()`: drop leading and trailing whitespace characters. -/
def pyStrip (s : String) : String :=
  String.mk (((s.data.dropWhile Char.isWhitespace).reverse.dropWhile Char.isWhitespace).reverse)

/-- Python `str.lower()` on the ASCII strings this program handles. -/
def pyLower (s : String) : String :=
  String.mk (s.data.map Char.toLower)

/-- Python `txt[:n]` on a string: the first `n` code points. -/
def pySlice (s : String) (n : Nat) : String :=
  String.mk (s.data.take n)

/-- Python `round(q)`: round to the nearest integer, ties to even. -/
def roundHalfEven (q : ℚ) : ℤ :=
  if q - q.floor < 1 / 2 then q.floor
  else if 1 / 2 < q - q.floor then q.floor + 1
  else if q.floor % 2 = 0 then q.floor else q.floor + 1

/-- Python `round(q, 2)`: round to two decimal places, ties to even. -/
def round2 (q : ℚ) : ℚ :=
  (roundHalfEven (q * 100) : ℚ) / 100

/-- One entry of the static menu (src/main.py lines 21-30, schemas.MenuItem). -/
structure MenuEntry where
  name : String
  category : String
  price : ℚ
  size : Option String := none
deriving DecidableEq

/-- Static menu, beverages section (src/main.py lines 21-26). -/
def BEVERAGES : List MenuEntry :=
  [⟨"Tea", "beverage", 10, none⟩,
   ⟨"Coffee", "beverage", 10, none⟩,
   ⟨"Cold Coffee", "beverage", 30, none⟩,
   ⟨"Banana Shake", "beverage", 90, some "1 litre"⟩]

/-- Static menu, fast-food section (src/main.py lines 27-30). -/
def FAST_FOOD : List MenuEntry :=
  [⟨"Patties", "fast-food", 20, none⟩,
   ⟨"Cold Drink", "fast-food", 100, some "2 litre"⟩]

/-- src/main.py line 32. -/
def DISCOUNT_THRESHOLD : ℚ := 299.0

/-- src/main.py line 33 (20%). -/
def DISCOUNT_RATE : ℚ := 0.20

/-- One raw order line, an untrusted dict `{name, unit_price, quantity}`
(src/main.py line 64).  `none` models an absent key. -/
structure RawItem where
  name : Option String := none
  quantity : Option Int := none
  unit_price : Option ℚ := none
deriving DecidableEq

/-- A validated order item (src/schemas.py, class OrderItem). -/
structure OrderItem where
  name : String
  unit_price : ℚ
  quantity : Int
  subtotal : ℚ
deriving DecidableEq

/-- The two client-input failures raised by `calculate_totals`
(src/main.py lines 87 and 90). -/
inductive PricingError where
  | invalidItem : PricingError
  | unknownMenuItem (name : String) : PricingError
deriving DecidableEq

/-- Python dict assignment `m[k] = v`: overwrite in place if the key exists,
otherwise append (insertion order is preserved, last write wins). -/
def dictInsert (m : List (String × ℚ)) (k : String) (v : ℚ) : List (String × ℚ) :=
  if m.any (fun p => p.1 = k) then m.map (fun p => if p.1 = k then (k, v) else p)
  else m ++ [(k, v)]

/-- The lookup `menu_price_map` built by iterating `BEVERAGES + FAST_FOOD` in
declaration order, keyed by lowercased name (src/main.py lines 77-79). -/
def menu_price_map : List (String × ℚ) :=
  (BEVERAGES ++ FAST_FOOD).foldl (fun m it => dictInsert m (pyLower it.name) it.price) []

/-- The body of the per-line loop of `calculate_totals` (src/main.py lines
83-95), as the item the line produces when it is accepted (`none` when the
line raises).  The name is trimmed, validated, looked up case-folded, and the
unit price comes from the menu only: the input `unit_price` is never read. -/
def priceLine (raw : RawItem) : Option OrderItem :=
  if pyStrip (raw.name.getD "") = "" ∨ raw.quantity.getD 0 < 1 then none
  else
    match List.lookup (pyLower (pyStrip (raw.name.getD ""))) menu_price_map with
    | none => none
    | some unit_price =>
      some ⟨pyStrip (raw.name.getD ""), unit_price, raw.quantity.getD 0,
            unit_price * ((raw.quantity.getD 0 : Int) : ℚ)⟩

/-- The loop of `calculate_totals` (src/main.py lines 81-95): walk the raw
lines in input order, accumulating `order_items` and the running `subtotal`,
raising on the first offending line. -/
def calcLoop : List RawItem → List OrderItem → ℚ → Except PricingError (List OrderItem × ℚ)
  | [], acc, subtotal => Except.ok (acc, subtotal)
  | raw :: rest, acc, subtotal =>
    if pyStrip (raw.name.getD "") = "" ∨ raw.quantity.getD 0 < 1 then
      Except.error PricingError.invalidItem
    else
      match List.lookup (pyLower (pyStrip (raw.name.getD ""))) menu_price_map with
      | none => Except.error (PricingError.unknownMenuItem (pyStrip (raw.name.getD "")))
      | some unit_price =>
        calcLoop rest
          (acc ++ [⟨pyStrip (raw.name.getD ""), unit_price, raw.quantity.getD 0,
                    unit_price * ((raw.quantity.getD 0 : Int) : ℚ)⟩])
          (subtotal + unit_price * ((raw.quantity.getD 0 : Int) : ℚ))

/-- src/main.py lines 97-99: the discount applied to an (unrounded) subtotal. -/
def discountFor (subtotal : ℚ) : ℚ :=
  if DISCOUNT_THRESHOLD < subtotal then round2 (subtotal * DISCOUNT_RATE) else 0

/-- The pricing engine `calculate_totals` (src/main.py lines 75-102): returns
`(order_items, subtotal, discount, total)` or the first line's error. -/
def calculate_totals (items : List RawItem) :
    Except PricingError (List OrderItem × ℚ × ℚ × ℚ) :=
  match calcLoop items [] 0 with
  | Except.error e => Except.error e
  | Except.ok (order_items, subtotal) =>
    Except.ok (order_items, round2 subtotal, discountFor subtotal,
               round2 (subtotal - discountFor subtotal))

/-- Modelled from the spec's failure semantics, for comparison with the
engine: the error one raw line triggers on its own, if any.  A line is
`invalidItem` when its trimmed name is empty or its quantity is below 1, and
`unknownMenuItem` (carrying the trimmed name) when its trimmed, case-folded
name is not in the menu lookup. -/
def lineOffense (raw : RawItem) : Option PricingError :=
  if pyStrip (raw.name.getD "") = "" ∨ raw.quantity.getD 0 < 1 then
    some PricingError.invalidItem
  else
    match List.lookup (pyLower (pyStrip (raw.name.getD ""))) menu_price_map with
    | none => some (PricingError.unknownMenuItem (pyStrip (raw.name.getD "")))
    | some _ => none

/-- Modelled from the spec's failure semantics, for comparison with the
engine: the error of the first offending line in input order, if any. -/
def firstOffense : List RawItem → Option PricingError
  | [] => none
  | raw :: rest =>
    match lineOffense raw with
    | some e => some e
    | none => firstOffense rest

/-- An order-creation request (src/main.py lines 59-65); the fields the pricing
and persistence pipeline reads. -/
structure CreateOrderRequest where
  customer_name : String
  hostel_block : String
  room_number : String
  phone : String
  items : List RawItem
  notes : Option String := none
deriving DecidableEq

/-- A persisted order (src/schemas.py, class Order); `status` defaults to
`"placed"`. -/
structure Order where
  customer_name : String
  hostel_block : String
  room_number : String
  phone : String
  items : List OrderItem
  subtotal : ℚ
  discount : ℚ
  total : ℚ
  notes : Option String := none
  status : String := "placed"
deriving DecidableEq

/-- The failures of `create_order`: a pricing failure propagated out of
`calculate_totals` (HTTP 400), or a wrapped storage failure (HTTP 500,
src/main.py lines 120-123). -/
inductive CreateOrderError where
  | pricing (e : PricingError) : CreateOrderError
  | database (msg : String) : CreateOrderError
deriving DecidableEq

/-- The response of `create_order` (src/main.py lines 67-72). -/
structure CreateOrderResponse where
  order_id : String
  total : ℚ
  subtotal : ℚ
  discount : ℚ
  status : String
deriving DecidableEq

/-- The order-creation operation `create_order` (src/main.py lines 104-125).
The opaque document store is passed as the collaborator `create_document`; the
second component of the result is the trace of documents passed to
`create_document`, in call order, so that persistence effects are visible in
the model.  The pricing engine runs first and its failure aborts the handler
before any persistence call. -/
def create_order (payload : CreateOrderRequest)
    (create_document : Order → Except String String) :
    Except CreateOrderError CreateOrderResponse × List Order :=
  match calculate_totals payload.items with
  | Except.error e => (Except.error (CreateOrderError.pricing e), [])
  | Except.ok (order_items, subtotal, discount, total) =>
    let order : Order :=
      { customer_name := payload.customer_name, hostel_block := payload.hostel_block,
        room_number := payload.room_number, phone := payload.phone,
        items := order_items, subtotal := subtotal, discount := discount,
        total := total, notes := payload.notes }
    match create_document order with
    | Except.error msg =>
      (Except.error (CreateOrderError.database ("Database error: " ++ msg)), [order])
    | Except.ok order_id =>
      (Except.ok { order_id := order_id, total := total, subtotal := subtotal,
                   discount := discount, status := order.status }, [order])

/-- One item dict inside a stored order, as read by the SMS formatter
(src/main.py line 160): `it.get(\x7b'name', ''\x7d)` and quantity default 1.
`none` models an absent key. -/
structure SmsItem where
  name : Option String := none
  quantity : Option Int := none
deriving DecidableEq

/-- One stored order dict, as read by the SMS formatter (src/main.py lines
155-158); `none` models an absent key. -/
structure SmsOrder where
  customer_name : Option String := none
  total : Option ℚ := none
  items : Option (List SmsItem) := none
deriving DecidableEq

/-- src/main.py line 160: one short item summary, name and quantity joined by
the multiplication sign. -/
def smsItemStr (it : SmsItem) : String :=
  (it.name.getD "") ++ "×" ++ toString (it.quantity.getD 1)

/-- src/main.py line 161: the line for one shown order (1-based index). -/
def smsOrderLine (i : Nat) (o : SmsOrder) : String :=
  toString i ++ ". " ++ o.customer_name.getD "?" ++ " - ₹" ++
    toString (roundHalfEven (o.total.getD 0)) ++ " (" ++
    String.intercalate ", " (((o.items.getD []).map smsItemStr).take 3) ++ ")"

/-- src/main.py lines 153-157: the running `total_sum`, accumulated inside the
loop over `orders[:10]` (only the shown orders contribute). -/
def smsTotalSum (orders : List SmsOrder) : ℚ :=
  ((orders.take 10).map (fun o => o.total.getD 0)).sum

/-- src/main.py lines 152-162: the list `lines` of the SMS body, before
joining and truncation: a header, one line per shown order (first 10), and a
trailing aggregate line. -/
def smsBody (orders : List SmsOrder) : List String :=
  ("RTU Canteen Orders:" :: (orders.take 10).enum.map (fun p => smsOrderLine (p.1 + 1) p.2)) ++
    ["Total Orders: " ++ toString orders.length ++ " | Sum: ₹" ++
      toString (roundHalfEven (smsTotalSum orders))]

/-- The SMS formatter `_format_orders_sms` (src/main.py lines 149-165): the
fixed message on an empty list, otherwise the newline-joined body, truncated
to the first 157 code points plus a one-character ellipsis when the joined
text is longer than 160 code points. -/
def format_orders_sms (orders : List SmsOrder) : String :=
  if orders = [] then "RTU Canteen: No recent orders."
  else
    if 160 < (String.intercalate "\n" (smsBody orders)).length then
      pySlice (String.intercalate "\n" (smsBody orders)) 157 ++ "…"
    else
      String.intercalate "\n" (smsBody orders)

/-- A synthetic order list whose SMS summary exceeds 160 characters: five
orders with 20-character customer names. -/
def longOrders : List SmsOrder :=
  List.replicate 5 ⟨some "Abcdefghijklmnopqrst", none, none⟩

/-- Eleven stored orders of total 1 each: more orders than the formatter
shows, to separate the shown subset from the whole list. -/
def elevenOrders : List SmsOrder :=
  List.replicate 11 ⟨some "A", some 1, none⟩

/-! ## Structural lemmas about the pricing engine -/

/-- Unfolding a successful `priceLine`: the produced item carries the trimmed
input name, the menu price for its case-folded key, the input quantity (at
least 1), and the line product as subtotal. -/
theorem priceLine_some_spec (raw : RawItem) (oi : OrderItem)
    (h : priceLine raw = some oi) :
    oi.name = pyStrip (raw.name.getD "") ∧
    List.lookup (pyLower oi.name) menu_price_map = some oi.unit_price ∧
    oi.quantity = raw.quantity.getD 0 ∧ 1 ≤ oi.quantity ∧
    oi.subtotal = oi.unit_price * (oi.quantity : ℚ) ∧
    lineOffense raw = none := by
  unfold priceLine at h
  by_cases hval : pyStrip (raw.name.getD "") = "" ∨ raw.quantity.getD 0 < 1
  · rw [if_pos hval] at h; cases h
  · rw [if_neg hval] at h
    cases hlook : List.lookup (pyLower (pyStrip (raw.name.getD ""))) menu_price_map with
    | none => rw [hlook] at h; cases h
    | some p =>
      rw [hlook] at h
      cases h
      obtain ⟨h1, h2⟩ := not_or.mp hval
      refine ⟨rfl, by simpa using hlook, rfl, ?_, rfl, ?_⟩
      · show (1 : ℤ) ≤ raw.quantity.getD 0
        omega
      · unfold lineOffense
        rw [if_neg hval, hlook]

/-- A line accepted by `priceLine` commits no offense, and vice versa. -/
theorem priceLine_isSome_iff (raw : RawItem) :
    (∃ oi, priceLine raw = some oi) ↔ lineOffense raw = none := by
  unfold priceLine lineOffense
  by_cases hval : pyStrip (raw.name.getD "") = "" ∨ raw.quantity.getD 0 < 1
  · simp [hval]
  · rw [if_neg hval, if_neg hval]
    cases hlook : List.lookup (pyLower (pyStrip (raw.name.getD ""))) menu_price_map <;> simp

/-- The loop of the engine fails with `e` exactly when the first offending
line of the input fails with `e`; the accumulators are irrelevant. -/
theorem calcLoop_error_iff (items : List RawItem) (acc : List OrderItem) (s : ℚ)
    (e : PricingError) :
    calcLoop items acc s = Except.error e ↔ firstOffense items = some e := by
  induction items generalizing acc s with
  | nil => simp [calcLoop, firstOffense]
  | cons raw rest ih =>
    simp only [calcLoop, firstOffense, lineOffense]
    by_cases hval : pyStrip (raw.name.getD "") = "" ∨ raw.quantity.getD 0 < 1
    · simp [hval]
    · rw [if_neg hval, if_neg hval]
      cases hlook : List.lookup (pyLower (pyStrip (raw.name.getD ""))) menu_price_map with
      | none => simp
      | some p => simpa using ih _ _

/-- A successful run of the engine loop appends to the accumulator exactly the
items priced from the input lines, in input order, and adds their subtotals to
the running sum. -/
theorem calcLoop_ok_spec (items : List RawItem) (acc : List OrderItem) (s : ℚ)
    (ois : List OrderItem) (st : ℚ) (h : calcLoop items acc s = Except.ok (ois, st)) :
    ∃ tail, ois = acc ++ tail ∧ st = s + (tail.map OrderItem.subtotal).sum ∧
      List.Forall₂ (fun raw oi => priceLine raw = some oi) items tail := by
  induction items generalizing acc s with
  | nil =>
    simp only [calcLoop, Except.ok.injEq, Prod.mk.injEq] at h
    exact ⟨[], by simp [h.1], by simp [h.2], List.Forall₂.nil⟩
  | cons raw rest ih =>
    simp only [calcLoop] at h
    by_cases hval : pyStrip (raw.name.getD "") = "" ∨ raw.quantity.getD 0 < 1
    · rw [if_pos hval] at h; cases h
    · rw [if_neg hval] at h
      cases hlook : List.lookup (pyLower (pyStrip (raw.name.getD ""))) menu_price_map with
      | none => rw [hlook] at h; cases h
      | some p =>
        rw [hlook] at h
        obtain ⟨tail, h1, h2, h3⟩ := ih _ _ h
        refine ⟨⟨pyStrip (raw.name.getD ""), p, raw.quantity.getD 0,
                 p * ((raw.quantity.getD 0 : Int) : ℚ)⟩ :: tail, ?_, ?_, ?_⟩
        · rw [h1]; simp
        · rw [h2, List.map_cons, List.sum_cons]; ring
        · refine List.Forall₂.cons ?_ h3
          unfold priceLine
          rw [if_neg hval, hlook]

/-- When the engine loop succeeds, no input line offends. -/
theorem calcLoop_ok_none (items : List RawItem) (acc : List OrderItem) (s : ℚ)
    (r : List OrderItem × ℚ) (h : calcLoop items acc s = Except.ok r) :
    firstOffense items = none := by
  induction items generalizing acc s with
  | nil => rfl
  | cons raw rest ih =>
    simp only [calcLoop] at h
    simp only [firstOffense, lineOffense]
    by_cases hval : pyStrip (raw.name.getD "") = "" ∨ raw.quantity.getD 0 < 1
    · rw [if_pos hval] at h; cases h
    · rw [if_neg hval] at h
      rw [if_neg hval]
      cases hlook : List.lookup (pyLower (pyStrip (raw.name.getD ""))) menu_price_map with
      | none => rw [hlook] at h; cases h
      | some p => rw [hlook] at h; exact ih _ _ h

/-- The pricing engine fails with `e` exactly when the first offending line of
the input, in input order, fails with `e`. -/
theorem calculate_totals_error_iff (items : List RawItem) (e : PricingError) :
    calculate_totals items = Except.error e ↔ firstOffense items = some e := by
  unfold calculate_totals
  cases hcl : calcLoop items [] 0 with
  | error e' =>
    rw [(calcLoop_error_iff items [] 0 e').mp hcl]
    simp
  | ok r =>
    obtain ⟨ois, S⟩ := r
    rw [calcLoop_ok_none items [] 0 _ hcl]
    simp

/-- A successful run of the pricing engine prices the input lines one-to-one
in input order; the returned subtotal, discount and total are computed from
the raw (unrounded) sum of the item subtotals. -/
theorem calculate_totals_ok_spec (items : List RawItem) (ois : List OrderItem)
    (st d t : ℚ) (h : calculate_totals items = Except.ok (ois, st, d, t)) :
    List.Forall₂ (fun raw oi => priceLine raw = some oi) items ois ∧
    st = round2 ((ois.map OrderItem.subtotal).sum) ∧
    d = discountFor ((ois.map OrderItem.subtotal).sum) ∧
    t = round2 ((ois.map OrderItem.subtotal).sum - d) := by
  unfold calculate_totals at h
  cases hcl : calcLoop items [] 0 with
  | error e => rw [hcl] at h; cases h
  | ok r =>
    obtain ⟨ois0, S⟩ := r
    rw [hcl] at h
    simp only [Except.ok.injEq, Prod.mk.injEq] at h
    obtain ⟨h1, h2, h3, h4⟩ := h
    obtain ⟨tail, ht1, ht2, ht3⟩ := calcLoop_ok_spec items [] 0 ois0 S hcl
    subst h1
    rw [List.nil_append] at ht1
    subst ht1
    rw [zero_add] at ht2
    subst ht2
    exact ⟨ht3, h2.symm, h3.symm, by rw [← h4, ← h3]⟩

/-- Membership extraction from a `Forall₂` relation, right-hand side. -/
theorem forall₂_mem_right {α β : Type} {R : α → β → Prop} {l₁ : List α} {l₂ : List β}
    (h : List.Forall₂ R l₁ l₂) : ∀ b ∈ l₂, ∃ a ∈ l₁, R a b := by
  induction h with
  | nil => intro b hb; cases hb
  | cons hr _ ih =>
    intro b hb
    rcases List.mem_cons.mp hb with hb | hb
    · exact ⟨_, List.mem_cons_self _ _, hb ▸ hr⟩
    · obtain ⟨a, ha, hab⟩ := ih b hb
      exact ⟨a, List.mem_cons_of_mem _ ha, hab⟩

/-- The engine never reads the client-supplied `unit_price`: rewriting that
field in every line leaves the loop's behaviour unchanged. -/
theorem calcLoop_unit_price_irrel (items : List RawItem) (f : RawItem → Option ℚ)
    (acc : List OrderItem) (s : ℚ) :
    calcLoop (items.map (fun raw => { raw with unit_price := f raw })) acc s =
      calcLoop items acc s := by
  induction items generalizing acc s with
  | nil => rfl
  | cons raw rest ih =>
    simp only [List.map_cons, calcLoop]
    by_cases hval : pyStrip (raw.name.getD "") = "" ∨ raw.quantity.getD 0 < 1
    · rw [if_pos hval, if_pos hval]
    · rw [if_neg hval, if_neg hval]
      cases hlook : List.lookup (pyLower (pyStrip (raw.name.getD ""))) menu_price_map with
      | none => rfl
      | some p => exact ih _ _

/-- The engine never reads the client-supplied `unit_price` (whole pipeline). -/
theorem calculate_totals_unit_price_irrel (items : List RawItem) (f : RawItem → Option ℚ) :
    calculate_totals (items.map (fun raw => { raw with unit_price := f raw })) =
      calculate_totals items := by
  unfold calculate_totals
  rw [calcLoop_unit_price_irrel]

/-- If some line of the input offends, the whole input has a first offense. -/
theorem firstOffense_isSome_of_offense (items : List RawItem) (i : Nat)
    (h1 : i < items.length) (h2 : lineOffense (items.get ⟨i, h1⟩) ≠ none) :
    ∃ e, firstOffense items = some e := by
  induction items generalizing i with
  | nil => cases h1
  | cons raw rest ih =>
    cases hl : lineOffense raw with
    | some e => exact ⟨e, by simp [firstOffense, hl]⟩
    | none =>
      cases i with
      | zero => exact absurd hl h2
      | succ j =>
        obtain ⟨e, he⟩ := ih j (by simpa using h1) (by simpa using h2)
        exact ⟨e, by simp [firstOffense, hl, he]⟩

/-- If every line before position `i` is inoffensive and line `i` offends with
`e`, then `e` is the first offense of the whole input. -/
theorem firstOffense_eq_of_clean_start (items : List RawItem) (i : Nat)
    (h1 : i < items.length) (e : PricingError)
    (hclean : ∀ j (hj : j < items.length), j < i → lineOffense (items.get ⟨j, hj⟩) = none)
    (hi : lineOffense (items.get ⟨i, h1⟩) = some e) :
    firstOffense items = some e := by
  induction items generalizing i with
  | nil => cases h1
  | cons raw rest ih =>
    cases i with
    | zero => simp [firstOffense, show lineOffense raw = some e from hi]
    | succ j =>
      have hraw : lineOffense raw = none := hclean 0 (by simp) (Nat.succ_pos j)
      simp only [firstOffense, hraw]
      exact ih j (by simpa using h1)
        (fun k hk hkj => by simpa using hclean (k + 1) (by simpa using hk) (by omega))
        (by simpa using hi)

/-! ## Rounding lemmas -/

/-- The Batteries floor used in this file's definitions agrees with the
Mathlib floor of a rational. -/
theorem rat_floor_eq_intFloor (q : ℚ) : q.floor = ⌊q⌋ := rfl

/-- Floor from two-sided bounds. -/
theorem rat_floor_eq_of_bounds (q : ℚ) (n : ℤ) (h1 : (n : ℚ) ≤ q) (h2 : q < n + 1) :
    q.floor = n := by
  rw [rat_floor_eq_intFloor]
  exact Int.floor_eq_iff.mpr ⟨h1, by exact_mod_cast h2⟩

/-- Rounding a rational strictly below the midpoint goes down. -/
theorem roundHalfEven_eq_of_lt_half (q : ℚ) (n : ℤ) (h1 : (n : ℚ) ≤ q)
    (h2 : q - n < 1 / 2) : roundHalfEven q = n := by
  have hf : q.floor = n := rat_floor_eq_of_bounds q n h1 (by linarith)
  unfold roundHalfEven
  rw [hf, if_pos (by linarith)]

/-- Rounding a rational strictly above the midpoint goes up. -/
theorem roundHalfEven_eq_of_half_lt (q : ℚ) (n : ℤ) (h1 : 1 / 2 < q - n)
    (h2 : q < n + 1) : roundHalfEven q = n + 1 := by
  have hf : q.floor = n := rat_floor_eq_of_bounds q n (by linarith) h2
  unfold roundHalfEven
  rw [hf]
  rw [if_neg (by linarith), if_pos (by linarith)]

/-! ## Structural lemmas about the SMS formatter -/

/-- On a non-empty order list the formatter returns the joined body, truncated
to 157 code points plus an ellipsis character exactly when the joined body
exceeds 160 code points. -/
theorem format_orders_sms_of_ne_nil (orders : List SmsOrder) (h : orders ≠ []) :
    format_orders_sms orders =
      if 160 < (String.intercalate "\n" (smsBody orders)).length then
        pySlice (String.intercalate "\n" (smsBody orders)) 157 ++ "…"
      else
        String.intercalate "\n" (smsBody orders) := by
  unfold format_orders_sms
  rw [if_neg h]

/-- The truncated form has exactly 158 code points: the 157 kept ones plus
the one-character ellipsis. -/
theorem length_pySlice_ellipsis (s : String) (h : 160 < s.length) :
    (pySlice s 157 ++ "…").length = 158 := by
  rw [String.length_append]
  have hdata : s.length = s.data.length := rfl
  have h157 : (pySlice s 157).length = 157 := by
    show (s.data.take 157).length = 157
    rw [List.length_take]
    omega
  rw [h157]
  rfl

/-- The last line of the SMS body is the trailing aggregate line. -/
theorem smsBody_getLast (orders : List SmsOrder) :
    (smsBody orders).getLast? =
      some ("Total Orders: " ++ toString orders.length ++ " | Sum: ₹" ++
        toString (roundHalfEven (smsTotalSum orders))) := by
  unfold smsBody
  rw [List.getLast?_concat]

/-! ## Claim theorems -/

/-- C1: for every accepted order, the unit price of every returned item is the
menu's price for the item's normalized name, and the engine's whole result
(items, subtotal, discount and total) is unchanged whether the client omits
`unit_price` or supplies any value for it: the client value is discarded
unconditionally. -/
theorem C1_price_authority (items : List RawItem) (ois : List OrderItem) (st d t : ℚ)
    (h : calculate_totals items = Except.ok (ois, st, d, t)) :
    (∀ oi ∈ ois, List.lookup (pyLower oi.name) menu_price_map = some oi.unit_price) ∧
    calculate_totals (items.map (fun raw => { raw with unit_price := none })) =
      calculate_totals items ∧
    ∀ p : Option ℚ,
      calculate_totals (items.map (fun raw => { raw with unit_price := p })) =
        calculate_totals items := by
  obtain ⟨hf, -, -, -⟩ := calculate_totals_ok_spec items ois st d t h
  refine ⟨?_, calculate_totals_unit_price_irrel items (fun _ => none),
    fun p => calculate_totals_unit_price_irrel items (fun _ => p)⟩
  intro oi hoi
  obtain ⟨raw, -, hpl⟩ := forall₂_mem_right hf oi hoi
  exact (priceLine_some_spec raw oi hpl).2.1

/-- Witness for C1 at a tampered line: a client-supplied unit price of 1 for
Tea is ignored and the menu price 10 is used. -/
theorem C1_price_authority_witness :
    calculate_totals [⟨some "Tea", some 2, some 1⟩] =
      Except.ok ([⟨"Tea", 10, 2, 20⟩], 20, 0, 20) ∧
    ((∀ oi ∈ [(⟨"Tea", 10, 2, 20⟩ : OrderItem)],
      List.lookup (pyLower oi.name) menu_price_map = some oi.unit_price) ∧
    calculate_totals ([(⟨some "Tea", some 2, some 1⟩ : RawItem)].map
        (fun raw => { raw with unit_price := none })) =
      calculate_totals [⟨some "Tea", some 2, some 1⟩] ∧
    ∀ p : Option ℚ,
      calculate_totals ([(⟨some "Tea", some 2, some 1⟩ : RawItem)].map
          (fun raw => { raw with unit_price := p })) =
        calculate_totals [⟨some "Tea", some 2, some 1⟩]) :=
  ⟨by with_unfolding_all decide,
   C1_price_authority [⟨some "Tea", some 2, some 1⟩] [⟨"Tea", 10, 2, 20⟩] 20 0 20
     (by with_unfolding_all decide)⟩

/-- C2: for every accepted order the discount is 0 when the unrounded subtotal
is at most the 299.0 threshold and `round2 (subtotal * 0.20)` when the
subtotal exceeds it strictly; at the boundary, subtotal 299.0 earns no
discount while 299.01 earns 59.8, leaving total 239.21. -/
theorem C2_discount_threshold (items : List RawItem) (ois : List OrderItem) (st d t : ℚ)
    (h : calculate_totals items = Except.ok (ois, st, d, t)) :
    ((ois.map OrderItem.subtotal).sum ≤ DISCOUNT_THRESHOLD → d = 0) ∧
    (DISCOUNT_THRESHOLD < (ois.map OrderItem.subtotal).sum →
      d = round2 ((ois.map OrderItem.subtotal).sum * DISCOUNT_RATE)) ∧
    discountFor 299.0 = 0 ∧ discountFor 299.01 = 59.8 ∧
    round2 (299.01 - 59.8) = 239.21 := by
  obtain ⟨-, -, hd, -⟩ := calculate_totals_ok_spec items ois st d t h
  refine ⟨?_, ?_, ?_, ?_, ?_⟩
  · intro hle
    rw [hd]
    unfold discountFor
    rw [if_neg (not_lt.mpr hle)]
  · intro hlt
    rw [hd]
    unfold discountFor
    rw [if_pos hlt]
  · unfold discountFor
    rw [if_neg (by norm_num [DISCOUNT_THRESHOLD])]
  · unfold discountFor
    rw [if_pos (by norm_num [DISCOUNT_THRESHOLD])]
    unfold round2
    have harg : (299.01 : ℚ) * DISCOUNT_RATE * 100 = 5980.2 := by
      norm_num [DISCOUNT_RATE]
    rw [harg, roundHalfEven_eq_of_lt_half 5980.2 5980 (by norm_num) (by norm_num)]
    norm_num
  · unfold round2
    have harg : ((299.01 : ℚ) - 59.8) * 100 = 23921 := by norm_num
    rw [harg, roundHalfEven_eq_of_lt_half 23921 23921 (by norm_num) (by norm_num)]
    norm_num

/-- Witness for C2 at four Cold Drinks: unrounded subtotal 400 exceeds the
threshold and the discount is 80. -/
theorem C2_discount_threshold_witness :
    calculate_totals [⟨some "Cold Drink", some 4, none⟩] =
      Except.ok ([⟨"Cold Drink", 100, 4, 400⟩], 400, 80, 320) ∧
    ((([(⟨"Cold Drink", 100, 4, 400⟩ : OrderItem)].map OrderItem.subtotal).sum ≤
        DISCOUNT_THRESHOLD → (80 : ℚ) = 0) ∧
     (DISCOUNT_THRESHOLD < ([(⟨"Cold Drink", 100, 4, 400⟩ : OrderItem)].map
          OrderItem.subtotal).sum →
        (80 : ℚ) = round2 ((([(⟨"Cold Drink", 100, 4, 400⟩ : OrderItem)].map
          OrderItem.subtotal).sum) * DISCOUNT_RATE)) ∧
     discountFor 299.0 = 0 ∧ discountFor 299.01 = 59.8 ∧
     round2 (299.01 - 59.8) = 239.21) :=
  ⟨by with_unfolding_all decide,
   C2_discount_threshold [⟨some "Cold Drink", some 4, none⟩] [⟨"Cold Drink", 100, 4, 400⟩]
     400 80 320 (by with_unfolding_all decide)⟩

/-- C3: for every accepted order, the returned total is
`round2 (raw subtotal - discount)` and the returned subtotal is the raw sum of
`unit_price * quantity` over all lines in input order, rounded only at the
end. -/
theorem C3_rounding_policy (items : List RawItem) (ois : List OrderItem) (st d t : ℚ)
    (h : calculate_totals items = Except.ok (ois, st, d, t)) :
    t = round2 ((ois.map (fun oi => oi.unit_price * (oi.quantity : ℚ))).sum - d) ∧
    st = round2 ((ois.map (fun oi => oi.unit_price * (oi.quantity : ℚ))).sum) ∧
    (ois.map (fun oi => oi.unit_price * (oi.quantity : ℚ))).sum =
      (ois.map OrderItem.subtotal).sum := by
  obtain ⟨hf, hst, -, ht⟩ := calculate_totals_ok_spec items ois st d t h
  have hmap : ois.map (fun oi => oi.unit_price * (oi.quantity : ℚ)) =
      ois.map OrderItem.subtotal := by
    refine List.map_congr_left ?_
    intro oi hoi
    obtain ⟨raw, -, hpl⟩ := forall₂_mem_right hf oi hoi
    exact ((priceLine_some_spec raw oi hpl).2.2.2.2.1).symm
  rw [hmap]
  exact ⟨ht, hst, rfl⟩

/-- Witness for C3 at two Teas plus one Cold Coffee. -/
theorem C3_rounding_policy_witness :
    calculate_totals [⟨some "Tea", some 2, none⟩, ⟨some "Cold Coffee", some 1, none⟩] =
      Except.ok ([⟨"Tea", 10, 2, 20⟩, ⟨"Cold Coffee", 30, 1, 30⟩], 50, 0, 50) ∧
    ((50 : ℚ) = round2 ((([(⟨"Tea", 10, 2, 20⟩ : OrderItem), ⟨"Cold Coffee", 30, 1, 30⟩].map
        (fun oi => oi.unit_price * (oi.quantity : ℚ))).sum) - 0) ∧
     (50 : ℚ) = round2 (([(⟨"Tea", 10, 2, 20⟩ : OrderItem), ⟨"Cold Coffee", 30, 1, 30⟩].map
        (fun oi => oi.unit_price * (oi.quantity : ℚ))).sum) ∧
     ([(⟨"Tea", 10, 2, 20⟩ : OrderItem), ⟨"Cold Coffee", 30, 1, 30⟩].map
        (fun oi => oi.unit_price * (oi.quantity : ℚ))).sum =
       ([(⟨"Tea", 10, 2, 20⟩ : OrderItem), ⟨"Cold Coffee", 30, 1, 30⟩].map
         OrderItem.subtotal).sum) :=
  ⟨by with_unfolding_all decide,
   C3_rounding_policy [⟨some "Tea", some 2, none⟩, ⟨some "Cold Coffee", some 1, none⟩]
     [⟨"Tea", 10, 2, 20⟩, ⟨"Cold Coffee", 30, 1, 30⟩] 50 0 50 (by with_unfolding_all decide)⟩

/-- C4: the pricing engine fails with error `e` exactly when the first
offending line of the input, scanned in input order, offends with `e`:
`invalidItem` for an empty trimmed name or a quantity below 1, otherwise
`unknownMenuItem` carrying the trimmed name when its case-folded form is
absent from the menu lookup.  In the failing case the engine returns no
items at all. -/
theorem C4_first_offense (items : List RawItem) (e : PricingError) :
    calculate_totals items = Except.error e ↔ firstOffense items = some e :=
  calculate_totals_error_iff items e

/-- C5: the document store is reached only after the pricing engine has
accepted the whole order: a validation failure produces the corresponding
error and an empty persistence trace, and a non-empty persistence trace
implies the engine succeeded. -/
theorem C5_no_persistence_on_failure (payload : CreateOrderRequest)
    (create_document : Order → Except String String) :
    (∀ e, calculate_totals payload.items = Except.error e →
      create_order payload create_document =
        (Except.error (CreateOrderError.pricing e), [])) ∧
    ((create_order payload create_document).2 ≠ [] →
      ∃ r, calculate_totals payload.items = Except.ok r) := by
  constructor
  · intro e he
    unfold create_order
    rw [he]
  · intro htrace
    cases hcalc : calculate_totals payload.items with
    | error e =>
      unfold create_order at htrace
      rw [hcalc] at htrace
      exact absurd rfl htrace
    | ok r => exact ⟨r, rfl⟩

/-- Witness for C5: an order containing an unknown menu item produces the
pricing error and no persistence call, under an always-succeeding store. -/
theorem C5_no_persistence_on_failure_witness :
    create_order ⟨"Asha", "B", "101", "+911234567890", [⟨some "Pizza", some 1, none⟩], none⟩
        (fun _ => Except.ok "id-1") =
      (Except.error (CreateOrderError.pricing (PricingError.unknownMenuItem "Pizza")), []) :=
  (C5_no_persistence_on_failure
      ⟨"Asha", "B", "101", "+911234567890", [⟨some "Pizza", some 1, none⟩], none⟩
      (fun _ => Except.ok "id-1")).1
    (PricingError.unknownMenuItem "Pizza") (by with_unfolding_all decide)

/-- C6 counterexample: on a list whose joined summary exceeds 160 characters
the formatter's output has 158 characters (157 kept code points plus the
one-character ellipsis), not 160 as claimed. -/
theorem C6_counterexample :
    160 < (String.intercalate "\n" (smsBody longOrders)).length ∧
    (format_orders_sms longOrders).length = 158 ∧ (158 : Nat) ≠ 160 :=
  ⟨by with_unfolding_all decide, by with_unfolding_all decide, by decide⟩

/-- C6 (amended): the formatter's output never exceeds 160 characters; when
the joined text exceeds 160 characters the output is its first 157 code
points followed by a single one-character ellipsis, 158 characters in all,
and otherwise the joined text is returned unchanged. -/
theorem C6_truncation (orders : List SmsOrder) :
    (format_orders_sms orders).length ≤ 160 ∧
    (orders ≠ [] → 160 < (String.intercalate "\n" (smsBody orders)).length →
      format_orders_sms orders =
        pySlice (String.intercalate "\n" (smsBody orders)) 157 ++ "…" ∧
      (format_orders_sms orders).length = 158) ∧
    (orders ≠ [] → (String.intercalate "\n" (smsBody orders)).length ≤ 160 →
      format_orders_sms orders = String.intercalate "\n" (smsBody orders)) := by
  by_cases hnil : orders = []
  · subst hnil
    exact ⟨by with_unfolding_all decide, fun hc => absurd rfl hc, fun hc => absurd rfl hc⟩
  · have hfmt := format_orders_sms_of_ne_nil orders hnil
    by_cases hlen : 160 < (String.intercalate "\n" (smsBody orders)).length
    · rw [hfmt, if_pos hlen]
      have h158 := length_pySlice_ellipsis _ hlen
      exact ⟨by rw [h158]; omega, fun _ _ => ⟨rfl, h158⟩,
        fun _ hle => absurd hlen (not_lt.mpr hle)⟩
    · rw [hfmt, if_neg hlen]
      exact ⟨le_of_not_lt hlen, fun _ hgt => absurd hgt hlen, fun _ _ => rfl⟩

/-- Witness for C6 (amended) at the synthetic long order list. -/
theorem C6_truncation_witness :
    (format_orders_sms longOrders).length ≤ 160 ∧
    (format_orders_sms longOrders =
        pySlice (String.intercalate "\n" (smsBody longOrders)) 157 ++ "…" ∧
      (format_orders_sms longOrders).length = 158) :=
  ⟨(C6_truncation longOrders).1,
   (C6_truncation longOrders).2.1 (by with_unfolding_all decide)
     (by with_unfolding_all decide)⟩

/-- C7 counterexample: with eleven orders of total 1 each, the trailing line
of the body reports the sum over the first 10 shown orders (10), not the sum
over all orders passed in (11) as claimed. -/
theorem C7_counterexample :
    (smsBody elevenOrders).getLast? ≠
      some ("Total Orders: " ++ toString elevenOrders.length ++ " | Sum: ₹" ++
        toString (roundHalfEven ((elevenOrders.map (fun o => o.total.getD 0)).sum))) := by
  rw [smsBody_getLast]
  with_unfolding_all decide

/-- C7 (amended): for every non-empty order list, the trailing line of the
body reports the count of all orders passed in but the rounded sum of the
`total` values of only the first 10 orders (the shown subset); the formatter
emits exactly this body, joined and possibly truncated. -/
theorem C7_trailing_line (orders : List SmsOrder) (h : orders ≠ []) :
    (smsBody orders).getLast? =
      some ("Total Orders: " ++ toString orders.length ++ " | Sum: ₹" ++
        toString (roundHalfEven (((orders.take 10).map (fun o => o.total.getD 0)).sum))) ∧
    format_orders_sms orders =
      if 160 < (String.intercalate "\n" (smsBody orders)).length then
        pySlice (String.intercalate "\n" (smsBody orders)) 157 ++ "…"
      else
        String.intercalate "\n" (smsBody orders) :=
  ⟨by rw [smsBody_getLast]; rfl, format_orders_sms_of_ne_nil orders h⟩

/-- Witness for C7 (amended) at the eleven-order list. -/
theorem C7_trailing_line_witness :
    (smsBody elevenOrders).getLast? =
      some ("Total Orders: " ++ toString elevenOrders.length ++ " | Sum: ₹" ++
        toString (roundHalfEven (((elevenOrders.take 10).map
          (fun o => o.total.getD 0)).sum))) ∧
    format_orders_sms elevenOrders =
      if 160 < (String.intercalate "\n" (smsBody elevenOrders)).length then
        pySlice (String.intercalate "\n" (smsBody elevenOrders)) 157 ++ "…"
      else
        String.intercalate "\n" (smsBody elevenOrders) :=
  C7_trailing_line elevenOrders (by with_unfolding_all decide)

/-- C8: menu-name resolution trims surrounding whitespace and matches
case-insensitively against the lookup built from the menu in declaration
order: the line named "  tea  " with quantity 2 resolves to the menu price 10
with line subtotal 20, the returned item carrying the trimmed original
casing; in general every returned item's name is the trimmed input name and
its price is the lookup's entry for the trimmed, case-folded key. -/
theorem C8_name_resolution :
    calculate_totals [⟨some "  tea  ", some 2, none⟩] =
      Except.ok ([⟨"tea", 10, 2, 20⟩], 20, 0, 20) ∧
    menu_price_map = [("tea", 10), ("coffee", 10), ("cold coffee", 30),
      ("banana shake", 90), ("patties", 20), ("cold drink", 100)] ∧
    ∀ items ois st d t, calculate_totals items = Except.ok (ois, st, d, t) →
      List.Forall₂ (fun raw oi => oi.name = pyStrip (raw.name.getD "") ∧
        List.lookup (pyLower (pyStrip (raw.name.getD ""))) menu_price_map =
          some oi.unit_price) items ois := by
  refine ⟨by with_unfolding_all decide, by with_unfolding_all decide, ?_⟩
  intro items ois st d t h
  refine List.Forall₂.imp ?_ (calculate_totals_ok_spec items ois st d t h).1
  intro raw oi hpl
  have hspec := priceLine_some_spec raw oi hpl
  exact ⟨hspec.1, by rw [← hspec.1]; exact hspec.2.1⟩

/-- Witness for C8's universally quantified part at the whitespace-padded,
lowercased Tea line. -/
theorem C8_name_resolution_witness :
    List.Forall₂ (fun (raw : RawItem) (oi : OrderItem) =>
        oi.name = pyStrip (raw.name.getD "") ∧
        List.lookup (pyLower (pyStrip (raw.name.getD ""))) menu_price_map =
          some oi.unit_price)
      [⟨some "  tea  ", some 2, none⟩] [⟨"tea", 10, 2, 20⟩] :=
  C8_name_resolution.2.2 [⟨some "  tea  ", some 2, none⟩] [⟨"tea", 10, 2, 20⟩] 20 0 20
    (by with_unfolding_all decide)

/-- C9: the SMS formatter is a total function of its input list — it returns
a text for every input — and on the empty list it returns the fixed
no-recent-orders message. -/
theorem C9_formatter_totality :
    format_orders_sms [] = "RTU Canteen: No recent orders." ∧
    ∀ orders : List SmsOrder, ∃ text : String, format_orders_sms orders = text :=
  ⟨by with_unfolding_all decide, fun orders => ⟨format_orders_sms orders, rfl⟩⟩

/-- C10 counterexample: a line with both keys missing forces rejection, but
when an earlier line already offends the engine's error is that earlier
line's error — here `unknownMenuItem "Pizza"` — not `invalidItem` as
claimed. -/
theorem C10_counterexample :
    calculate_totals [⟨some "Pizza", some 1, none⟩, ⟨none, none, none⟩] =
      Except.error (PricingError.unknownMenuItem "Pizza") ∧
    PricingError.unknownMenuItem "Pizza" ≠ PricingError.invalidItem ∧
    ([(⟨some "Pizza", some 1, none⟩ : RawItem), ⟨none, none, none⟩].get
      ⟨1, by decide⟩).name = none :=
  ⟨by with_unfolding_all decide, by decide, rfl⟩

/-- C10 (amended): a line whose name key or quantity key is absent defaults
to the empty name or quantity 0, so it can never be priced and the whole
order is always rejected; the error is `invalidItem` whenever no earlier line
offends first. -/
theorem C10_missing_field_rejected (items : List RawItem) (i : Nat)
    (h1 : i < items.length)
    (h2 : (items.get ⟨i, h1⟩).name = none ∨ (items.get ⟨i, h1⟩).quantity = none) :
    (∃ e, calculate_totals items = Except.error e) ∧
    ((∀ j (hj : j < items.length), j < i → lineOffense (items.get ⟨j, hj⟩) = none) →
      calculate_totals items = Except.error PricingError.invalidItem) := by
  have hline : lineOffense (items.get ⟨i, h1⟩) = some PricingError.invalidItem := by
    unfold lineOffense
    have hcond : pyStrip ((items.get ⟨i, h1⟩).name.getD "") = "" ∨
        (items.get ⟨i, h1⟩).quantity.getD 0 < 1 := by
      rcases h2 with h2 | h2
      · left; rw [h2]; with_unfolding_all decide
      · right; rw [h2]; decide
    rw [if_pos hcond]
  constructor
  · obtain ⟨e, he⟩ := firstOffense_isSome_of_offense items i h1
      (by rw [hline]; exact fun hc => nomatch hc)
    exact ⟨e, (calculate_totals_error_iff items e).mpr he⟩
  · intro hclean
    exact (calculate_totals_error_iff items PricingError.invalidItem).mpr
      (firstOffense_eq_of_clean_start items i h1 PricingError.invalidItem hclean hline)

/-- Witness for C10 (amended) at a single line missing its name key. -/
theorem C10_missing_field_rejected_witness :
    (∃ e, calculate_totals [(⟨none, some 2, none⟩ : RawItem)] = Except.error e) ∧
    ((∀ j (hj : j < [(⟨none, some 2, none⟩ : RawItem)].length), j < 0 →
        lineOffense ([(⟨none, some 2, none⟩ : RawItem)].get ⟨j, hj⟩) = none) →
      calculate_totals [(⟨none, some 2, none⟩ : RawItem)] =
        Except.error PricingError.invalidItem) :=
  C10_missing_field_rejected [⟨none, some 2, none⟩] 0 (by decide) (Or.inl rfl)
